import Mathlib

/-!
Verification of the `rngd-dev` WebGL image-grid renderer against its
natural-language specification.

The definitions below are a shallow embedding of the TypeScript source in
`src/components/WebGLGrid/WebGLGrid.ts` and the `ArchiveView` controller.
JavaScript numbers are modelled as exact rationals (`ℚ`); the values the
claims exercise (multiples of 1/1000 in a small range) are far from any
binary-float rounding boundary, so the rational model agrees with the
float64 behaviour of the source at every input used here.
DOM, GSAP-timeline and WebGL side effects are modelled as explicit state
records; only the fields the claims talk about are tracked.
-/

namespace RngdGrid

/-! ## Zoom (`WebGLGrid.zoom`, lines 1288–1307)

`zoom(action)` returns immediately when `isIntroShown` is false; otherwise it
computes `targetZoom` as `Math.round(currentZoom * 2 * 1000) / 1000` for
`'zoom-in'` and `Math.round(currentZoom * 0.5 * 1000) / 1000` for every other
action string, clamps it with `Math.max(0.25, targetZoom)` and animates the
current zoom towards it.  The animation always ends at `targetZoom`, so a
discrete zoom action is the function `zoomTarget` below.  `Math.round`
rounds half away from zero towards +∞ for positive arguments, i.e.
`⌊x + 1/2⌋`. -/

/-- JavaScript `Math.round(x * 1000) / 1000` (round half towards +∞). -/
def round3 (x : ℚ) : ℚ := (⌊x * 1000 + 1 / 2⌋ : ℚ) / 1000

/-- The target-zoom computation of `WebGLGrid.zoom` once the intro guard has
passed: double or halve, round to 3 decimals, clamp at the 0.25 floor. -/
def zoomTarget (action : String) (z : ℚ) : ℚ :=
  let targetZoom : ℚ :=
    if action = "zoom-in" then round3 (z * 2) else round3 (z * (1 / 2))
  max (1 / 4) targetZoom

/-- `WebGLGrid.zoom` including the `isIntroShown` guard: a no-op before the
intro has completed. -/
def zoomCall (isIntroShown : Bool) (action : String) (z : ℚ) : ℚ :=
  if isIntroShown then zoomTarget action z else z

/-- The zoom resulting from a sequence of discrete zoom actions starting from
the resting zoom 0.9 the intro animation ends at. -/
def zoomRun (actions : List String) : ℚ :=
  actions.foldl (fun z a => zoomTarget a z) (9 / 10)

theorem round3_intCast_div (k : ℤ) : round3 ((k : ℚ) / 1000) = (k : ℚ) / 1000 := by
  unfold round3
  have h : ((k : ℚ) / 1000) * 1000 + 1 / 2 = (k : ℚ) + 1 / 2 := by ring
  rw [h]
  have hfloor : ⌊(k : ℚ) + 1 / 2⌋ = k := by
    rw [Int.floor_eq_iff]
    constructor
    · linarith
    · linarith
  rw [hfloor]

theorem zoomTarget_in (z : ℚ) :
    zoomTarget "zoom-in" z = max (1 / 4) (round3 (z * 2)) := by
  simp [zoomTarget]

theorem zoomTarget_out (z : ℚ) :
    zoomTarget "zoom-out" z = max (1 / 4) (round3 (z * (1 / 2))) := by
  simp [zoomTarget]

/-- Values reachable from the initial resting zoom 0.9 by zoom-in / zoom-out
actions: `0.9·2^j`, `0.45`, or `0.25·2^j`. -/
def ReachVal (z : ℚ) : Prop :=
  (∃ j : ℕ, z = 9 / 10 * 2 ^ j) ∨ z = 9 / 20 ∨ (∃ j : ℕ, z = 1 / 4 * 2 ^ j)

theorem ReachVal_init : ReachVal (9 / 10) := Or.inl ⟨0, by norm_num⟩

theorem ReachVal_even_thousandths {z : ℚ} (h : ReachVal z) :
    ∃ m : ℤ, z = (2 * m : ℤ) / 1000 ∧ 1 / 4 ≤ z := by
  rcases h with ⟨j, rfl⟩ | rfl | ⟨j, rfl⟩
  · refine ⟨450 * 2 ^ j, ?_, ?_⟩
    · push_cast; ring
    · have h1 : (1 : ℚ) ≤ 2 ^ j := one_le_pow₀ (by norm_num)
      nlinarith
  · exact ⟨225, by norm_num, by norm_num⟩
  · refine ⟨125 * 2 ^ j, ?_, ?_⟩
    · push_cast; ring
    · have h1 : (1 : ℚ) ≤ 2 ^ j := one_le_pow₀ (by norm_num)
      nlinarith

theorem zoomTarget_other {a : String} (ha : a ≠ "zoom-in") (z : ℚ) :
    zoomTarget a z = max (1 / 4) (round3 (z * (1 / 2))) := by
  simp [zoomTarget, ha]

theorem ReachVal_step {z : ℚ} (h : ReachVal z) (a : String) :
    ReachVal (zoomTarget a z) := by
  by_cases ha : a = "zoom-in"
  · subst ha
    rw [zoomTarget_in]
    rcases ReachVal_even_thousandths h with ⟨m, hm, hz⟩
    rw [hm] at hz ⊢
    have h2 : ((2 * m : ℤ) : ℚ) / 1000 * 2 = ((4 * m : ℤ) : ℚ) / 1000 := by
      push_cast; ring
    rw [h2, round3_intCast_div]
    have hmax : max (1 / 4 : ℚ) (((4 * m : ℤ) : ℚ) / 1000) = ((4 * m : ℤ) : ℚ) / 1000 := by
      rw [max_eq_right]
      have h3 : ((4 * m : ℤ) : ℚ) / 1000 = 2 * (((2 * m : ℤ) : ℚ) / 1000) := by push_cast; ring
      rw [h3]; linarith
    rw [hmax]
    have h3 : ((4 * m : ℤ) : ℚ) / 1000 = 2 * (((2 * m : ℤ) : ℚ) / 1000) := by push_cast; ring
    rw [h3, ← hm]
    rcases h with ⟨j, hj⟩ | hj | ⟨j, hj⟩
    · exact Or.inl ⟨j + 1, by rw [hj]; ring⟩
    · exact Or.inl ⟨0, by rw [hj]; ring⟩
    · exact Or.inr (Or.inr ⟨j + 1, by rw [hj]; ring⟩)
  · rw [zoomTarget_other ha]
    rcases h with ⟨j, hj⟩ | hj | ⟨j, hj⟩
    · subst hj
      cases j with
      | zero =>
          right; left
          have h2 : (9 / 10 : ℚ) * 2 ^ 0 * (1 / 2) = ((450 : ℤ) : ℚ) / 1000 := by norm_num
          rw [h2, round3_intCast_div]
          rw [max_eq_right (by norm_num)]
          norm_num
      | succ j =>
          left
          refine ⟨j, ?_⟩
          have h2 : (9 / 10 : ℚ) * 2 ^ (j + 1) * (1 / 2) = ((900 * 2 ^ j : ℤ) : ℚ) / 1000 := by
            push_cast; ring
          rw [h2, round3_intCast_div]
          rw [max_eq_right]
          · push_cast; ring
          · have h1 : (1 : ℚ) ≤ 2 ^ j := one_le_pow₀ (by norm_num)
            have h4 : ((900 * 2 ^ j : ℤ) : ℚ) / 1000 = 900 * (2 : ℚ) ^ j / 1000 := by
              push_cast; ring
            rw [h4]; nlinarith
    · subst hj
      right; right
      refine ⟨0, ?_⟩
      have h2 : (9 / 20 : ℚ) * (1 / 2) = ((225 : ℤ) : ℚ) / 1000 := by norm_num
      rw [h2, round3_intCast_div]
      rw [max_eq_left (by norm_num)]
      norm_num
    · subst hj
      cases j with
      | zero =>
          right; right
          refine ⟨0, ?_⟩
          have h2 : (1 / 4 : ℚ) * 2 ^ 0 * (1 / 2) = ((125 : ℤ) : ℚ) / 1000 := by norm_num
          rw [h2, round3_intCast_div]
          rw [max_eq_left (by norm_num)]
          norm_num
      | succ j =>
          right; right
          refine ⟨j, ?_⟩
          have h2 : (1 / 4 : ℚ) * 2 ^ (j + 1) * (1 / 2) = ((250 * 2 ^ j : ℤ) : ℚ) / 1000 := by
            push_cast; ring
          rw [h2, round3_intCast_div]
          rw [max_eq_right]
          · push_cast; ring
          · have h1 : (1 : ℚ) ≤ 2 ^ j := one_le_pow₀ (by norm_num)
            have h4 : ((250 * 2 ^ j : ℤ) : ℚ) / 1000 = 250 * (2 : ℚ) ^ j / 1000 := by
              push_cast; ring
            rw [h4]; nlinarith

theorem ReachVal_zoomRun (actions : List String) : ReachVal (zoomRun actions) := by
  unfold zoomRun
  have h : ∀ (l : List String) (z : ℚ), ReachVal z →
      ReachVal (l.foldl (fun z a => zoomTarget a z) z) := by
    intro l
    induction l with
    | nil => intro z hz; exact hz
    | cons a rest ih =>
        intro z hz
        exact ih _ (ReachVal_step hz a)
  exact h actions _ ReachVal_init

/-- Zoom-in then zoom-out is exactly the identity on values that are an even
number of thousandths and at least the 0.25 floor. -/
theorem inThenOut_exact {z : ℚ} {m : ℤ} (hm : z = (2 * m : ℤ) / 1000)
    (hz : 1 / 4 ≤ z) :
    zoomTarget "zoom-out" (zoomTarget "zoom-in" z) = z := by
  subst hm
  rw [zoomTarget_in, zoomTarget_out]
  have h2 : ((2 * m : ℤ) : ℚ) / 1000 * 2 = ((4 * m : ℤ) : ℚ) / 1000 := by push_cast; ring
  rw [h2, round3_intCast_div]
  have hmax : max (1 / 4 : ℚ) (((4 * m : ℤ) : ℚ) / 1000) = ((4 * m : ℤ) : ℚ) / 1000 := by
    rw [max_eq_right]
    have h3 : ((4 * m : ℤ) : ℚ) / 1000 = 2 * (((2 * m : ℤ) : ℚ) / 1000) := by push_cast; ring
    rw [h3]; linarith
  rw [hmax]
  have h4 : ((4 * m : ℤ) : ℚ) / 1000 * (1 / 2) = ((2 * m : ℤ) : ℚ) / 1000 := by push_cast; ring
  rw [h4, round3_intCast_div]
  rw [max_eq_right hz]

/-- Zoom-out then zoom-in is exactly the identity on even-thousandths values,
provided the intermediate rounded half is not clamped at the 0.25 floor. -/
theorem outThenIn_exact {z : ℚ} {m : ℤ} (hm : z = (2 * m : ℤ) / 1000)
    (hclamp : 1 / 4 ≤ round3 (z * (1 / 2))) :
    zoomTarget "zoom-in" (zoomTarget "zoom-out" z) = z := by
  subst hm
  rw [zoomTarget_out, zoomTarget_in]
  have h2 : ((2 * m : ℤ) : ℚ) / 1000 * (1 / 2) = ((m : ℤ) : ℚ) / 1000 := by push_cast; ring
  rw [h2, round3_intCast_div]
  rw [h2, round3_intCast_div] at hclamp
  rw [max_eq_right hclamp]
  have h3 : ((m : ℤ) : ℚ) / 1000 * 2 = ((2 * m : ℤ) : ℚ) / 1000 := by push_cast; ring
  rw [h3, round3_intCast_div]
  rw [max_eq_right]
  have h4 : ((2 * m : ℤ) : ℚ) / 1000 = 2 * (((m : ℤ) : ℚ) / 1000) := by push_cast; ring
  rw [h4]; linarith

theorem zoomTarget_in_eval (z : ℚ) (k : ℤ) (hk : z * 2 = (k : ℚ) / 1000) :
    zoomTarget "zoom-in" z = max (1 / 4) ((k : ℚ) / 1000) := by
  rw [zoomTarget_in, hk, round3_intCast_div]

theorem zoomTarget_out_eval (z : ℚ) (k : ℤ) (hk : z * (1 / 2) = (k : ℚ) / 1000) :
    zoomTarget "zoom-out" z = max (1 / 4) ((k : ℚ) / 1000) := by
  rw [zoomTarget_out, hk, round3_intCast_div]

/-- C2 counterexample: the zoom value 0.45 is reachable from the initial
resting zoom 0.9 (one zoom-out), but applying zoom-out then zoom-in from 0.45
lands at 0.5 because the intermediate value 0.225 is clamped at the 0.25
floor — a distance of 0.05 from 0.45, far beyond 3-decimal rounding. -/
theorem C2_zoom_roundtrip_counterexample :
    zoomRun ["zoom-out"] = 9 / 20 ∧
    zoomTarget "zoom-in" (zoomTarget "zoom-out" (9 / 20)) = 1 / 2 ∧
    ¬ |(1 : ℚ) / 2 - 9 / 20| ≤ 1 / 1000 := by
  refine ⟨?_, ?_, ?_⟩
  · show zoomTarget "zoom-out" (9 / 10) = 9 / 20
    rw [zoomTarget_out_eval (9 / 10) 450 (by norm_num)]
    rw [max_eq_right (by norm_num)]
    norm_num
  · rw [zoomTarget_out_eval (9 / 20) 225 (by norm_num)]
    rw [max_eq_left (by norm_num)]
    rw [zoomTarget_in_eval (1 / 4) 500 (by norm_num)]
    rw [max_eq_right (by norm_num)]
    norm_num
  · have h : (1 : ℚ) / 2 - 9 / 20 = 1 / 20 := by norm_num
    rw [h, abs_of_nonneg (by norm_num)]
    norm_num

/-- C2 (amended): for every zoom value reachable by zoom-in/zoom-out actions
from the initial resting zoom 0.9, zoom-in followed by zoom-out returns
exactly to the original value; zoom-out followed by zoom-in returns exactly to
the original value provided the intermediate halved-and-rounded value is not
clamped at the 0.25 floor. -/
theorem C2_zoom_roundtrip_amended (actions : List String) :
    zoomTarget "zoom-out" (zoomTarget "zoom-in" (zoomRun actions)) = zoomRun actions ∧
    (1 / 4 ≤ round3 (zoomRun actions * (1 / 2)) →
      zoomTarget "zoom-in" (zoomTarget "zoom-out" (zoomRun actions)) = zoomRun actions) := by
  obtain ⟨m, hm, hz⟩ := ReachVal_even_thousandths (ReachVal_zoomRun actions)
  exact ⟨inThenOut_exact hm hz, fun hc => outThenIn_exact hm hc⟩

/-- C2 witness: at the empty action sequence (zoom 0.9) the zoom-out guard
holds and both round trips return exactly to 0.9. -/
theorem C2_zoom_roundtrip_witness :
    zoomTarget "zoom-out" (zoomTarget "zoom-in" (zoomRun [])) = zoomRun [] ∧
    zoomTarget "zoom-in" (zoomTarget "zoom-out" (zoomRun [])) = zoomRun [] := by
  have hguard : (1 : ℚ) / 4 ≤ round3 (zoomRun [] * (1 / 2)) := by
    have h : zoomRun [] * (1 / 2) = ((450 : ℤ) : ℚ) / 1000 := by
      show (9 : ℚ) / 10 * (1 / 2) = ((450 : ℤ) : ℚ) / 1000
      norm_num
    rw [h, round3_intCast_div]
    norm_num
  exact ⟨(C2_zoom_roundtrip_amended []).1, (C2_zoom_roundtrip_amended []).2 hguard⟩

/-- C3: every zoom value reachable from the initial resting zoom 0.9 by
discrete zoom actions stays at or above the 0.25 floor, and each discrete
action doubles (zoom-in) or halves (zoom-out) the current zoom, rounds to
3 decimal places, and clamps at the 0.25 floor with no ceiling. -/
theorem C3_zoom_floor_invariant :
    (∀ actions : List String, 1 / 4 ≤ zoomRun actions) ∧
    (∀ z : ℚ, zoomTarget "zoom-in" z = max (1 / 4) (round3 (z * 2))) ∧
    (∀ z : ℚ, zoomTarget "zoom-out" z = max (1 / 4) (round3 (z * (1 / 2)))) := by
  refine ⟨?_, zoomTarget_in, zoomTarget_out⟩
  intro actions
  unfold zoomRun
  have h : ∀ (l : List String) (z : ℚ), 1 / 4 ≤ z →
      1 / 4 ≤ l.foldl (fun z a => zoomTarget a z) z := by
    intro l
    induction l with
    | nil => intro z hz; exact hz
    | cons a rest ih =>
        intro z _
        exact ih _ (le_max_left _ _)
  exact h actions _ (by norm_num)

/-- C10: once the intro has completed, `zoom` with any action string other
than `'zoom-in'` performs a zoom-out — target is the current zoom halved,
rounded to 3 decimals, clamped at 0.25; unknown actions are not rejected. -/
theorem C10_unknown_action_zooms_out (z : ℚ) {a : String} (ha : a ≠ "zoom-in") :
    zoomCall true a z = max (1 / 4) (round3 (z * (1 / 2))) := by
  rw [zoomCall, if_pos rfl, zoomTarget_other ha]

/-- C10 witness: the unrecognized action string `"fade"` at zoom 0.9 performs
a zoom-out to 0.45. -/
theorem C10_unknown_action_witness : zoomCall true "fade" (9 / 10) = 9 / 20 := by
  have heval : max (1 / 4 : ℚ) (round3 (9 / 10 * (1 / 2))) = 9 / 20 := by
    have h : (9 : ℚ) / 10 * (1 / 2) = ((450 : ℤ) : ℚ) / 1000 := by norm_num
    rw [h, round3_intCast_div, max_eq_right (by norm_num)]
    norm_num
  exact (C10_unknown_action_zooms_out (9 / 10) (by decide)).trans heval

/-! ## Tile wraparound (`createGridItem.item.update`, lines 697–718)

Each frame the tile adds the motion delta to its position and then, per axis,
wraps: crossing `bounds.left` (`x <= left`) teleports to
`right - (left - x) - itemWidth`, crossing `bounds.right` (`x >= right`)
teleports to `left - (right - x) + itemWidth`, where `itemWidth` is one grid
period (`ITEM_WIDTH + HORIZONTAL_GAP`; vertically `ITEM_HEIGHT +
VERTICAL_GAP`).  The bounds box set by `updateBounds` spans the whole grid:
its width is `COLUMN_ITEM_LENGTH` periods (at least 39 in every device
class), so the `2 * period ≤ width` hypotheses below hold for every grid the
renderer builds. -/

structure Bounds where
  left : ℚ
  right : ℚ
  top : ℚ
  bottom : ℚ

/-- One axis of `item.update`: the post-delta coordinate, wrapped. -/
def wrapCoord (lo hi period x : ℚ) : ℚ :=
  if x ≤ lo then hi - (lo - x) - period
  else if hi ≤ x then lo - (hi - x) + period
  else x

/-- `item.update(delta)`: move by the frame delta, then wrap both axes. -/
def tileUpdate (b : Bounds) (itemWidth itemHeight : ℚ) (pos delta : ℚ × ℚ) :
    ℚ × ℚ :=
  (wrapCoord b.left b.right itemWidth (pos.1 + delta.1),
   wrapCoord b.top b.bottom itemHeight (pos.2 + delta.2))

/-- A sequence of per-frame `update` ticks. -/
def updateRun (b : Bounds) (itemWidth itemHeight : ℚ) (pos : ℚ × ℚ)
    (deltas : List (ℚ × ℚ)) : ℚ × ℚ :=
  deltas.foldl (tileUpdate b itemWidth itemHeight) pos

/-- The half-open bounding box `[left, right) × [top, bottom)`. -/
def inBox (b : Bounds) (p : ℚ × ℚ) : Prop :=
  b.left ≤ p.1 ∧ p.1 < b.right ∧ b.top ≤ p.2 ∧ p.2 < b.bottom

theorem wrapCoord_mem {lo hi period x d : ℚ} (hp : 0 < period)
    (hw : 2 * period ≤ hi - lo) (hx1 : lo ≤ x) (hx2 : x < hi)
    (hd : |d| ≤ period) :
    lo ≤ wrapCoord lo hi period (x + d) ∧ wrapCoord lo hi period (x + d) < hi := by
  obtain ⟨hd1, hd2⟩ := abs_le.mp hd
  unfold wrapCoord
  split_ifs with h1 h2
  · constructor <;> linarith
  · constructor <;> linarith
  · constructor <;> linarith

theorem wrapCoord_escape {lo hi period x d : ℚ} (hp : 0 < period)
    (hw : period ≤ hi - lo) (hx1 : lo ≤ x) (hx2 : x < hi) :
    lo - |d| ≤ wrapCoord lo hi period (x + d) ∧
      wrapCoord lo hi period (x + d) < hi + |d| := by
  have hd1 : -|d| ≤ d := neg_abs_le d
  have hd2 : d ≤ |d| := le_abs_self d
  unfold wrapCoord
  split_ifs with h1 h2
  · constructor <;> linarith
  · constructor <;> linarith
  · constructor <;> linarith

theorem tileUpdate_mem {b : Bounds} {iw ih : ℚ} (hiw : 0 < iw) (hih : 0 < ih)
    (hw : 2 * iw ≤ b.right - b.left) (hh : 2 * ih ≤ b.bottom - b.top)
    {p d : ℚ × ℚ} (hp : inBox b p) (hd1 : |d.1| ≤ iw) (hd2 : |d.2| ≤ ih) :
    inBox b (tileUpdate b iw ih p d) := by
  obtain ⟨ha, hb, hc, he⟩ := hp
  obtain ⟨h1, h2⟩ := wrapCoord_mem hiw hw ha hb hd1
  obtain ⟨h3, h4⟩ := wrapCoord_mem hih hh hc he hd2
  exact ⟨h1, h2, h3, h4⟩

/-- C4: tile wraparound. (i) Under per-frame motion deltas of at most one
grid period per axis, any number of `update()` ticks keeps the tile inside
`[bounds.left, bounds.right) × [bounds.top, bounds.bottom)`.  (ii) A single
tick with an arbitrary delta never lets the tile escape the box by more than
that frame's motion delta.  (iii) A tile crossing `bounds.left` is teleported
exactly to the opposite bound minus the overshoot, offset by one
`itemWidth` period (and symmetrically on the right and vertically). -/
theorem C4_tile_wraparound (b : Bounds) (iw ih : ℚ) (hiw : 0 < iw)
    (hih : 0 < ih) (hw : 2 * iw ≤ b.right - b.left)
    (hh : 2 * ih ≤ b.bottom - b.top) :
    (∀ (p : ℚ × ℚ) (ds : List (ℚ × ℚ)), inBox b p →
      (∀ d ∈ ds, |d.1| ≤ iw ∧ |d.2| ≤ ih) → inBox b (updateRun b iw ih p ds)) ∧
    (∀ p d : ℚ × ℚ, inBox b p →
      b.left - |d.1| ≤ (tileUpdate b iw ih p d).1 ∧
      (tileUpdate b iw ih p d).1 < b.right + |d.1| ∧
      b.top - |d.2| ≤ (tileUpdate b iw ih p d).2 ∧
      (tileUpdate b iw ih p d).2 < b.bottom + |d.2|) ∧
    (∀ p d : ℚ × ℚ, p.1 + d.1 ≤ b.left →
      (tileUpdate b iw ih p d).1 = b.right - (b.left - (p.1 + d.1)) - iw) ∧
    (∀ p d : ℚ × ℚ, b.right ≤ p.1 + d.1 → ¬ p.1 + d.1 ≤ b.left →
      (tileUpdate b iw ih p d).1 = b.left - (b.right - (p.1 + d.1)) + iw) := by
  refine ⟨?_, ?_, ?_, ?_⟩
  · intro p ds
    induction ds generalizing p with
    | nil => intro hp _; exact hp
    | cons d rest ih2 =>
        intro hp hds
        have hstep := tileUpdate_mem hiw hih hw hh hp
          (hds d (List.mem_cons_self d rest)).1 (hds d (List.mem_cons_self d rest)).2
        exact ih2 _ hstep (fun e he => hds e (List.mem_cons_of_mem d he))
  · intro p d hp
    obtain ⟨ha, hb, hc, he⟩ := hp
    obtain ⟨h1, h2⟩ := wrapCoord_escape hiw (by linarith) ha hb (d := d.1)
    obtain ⟨h3, h4⟩ := wrapCoord_escape hih (by linarith) hc he (d := d.2)
    exact ⟨h1, h2, h3, h4⟩
  · intro p d hcross
    show wrapCoord b.left b.right iw (p.1 + d.1) = _
    rw [wrapCoord, if_pos hcross]
  · intro p d hcross hnot
    show wrapCoord b.left b.right iw (p.1 + d.1) = _
    rw [wrapCoord, if_neg hnot, if_pos hcross]

/-- C4 witness: bounds `[0,4) × [0,4)` with unit periods; a tile starting at
`(1/2, 1/2)` stays inside the box across two update ticks, the escape bound
holds for a concrete large delta, and the left-crossing teleport formula is
exercised concretely. -/
theorem C4_tile_wraparound_witness :
    inBox ⟨0, 4, 0, 4⟩ (updateRun ⟨0, 4, 0, 4⟩ 1 1 (1 / 2, 1 / 2) [(1, 0), (-1, 1)]) ∧
    (0 : ℚ) - |(10 : ℚ)| ≤ (tileUpdate ⟨0, 4, 0, 4⟩ 1 1 (1 / 2, 1 / 2) (10, 0)).1 ∧
    (tileUpdate ⟨0, 4, 0, 4⟩ 1 1 (1 / 2, 1 / 2) (10, 0)).1 < 4 + |(10 : ℚ)| ∧
    (tileUpdate ⟨0, 4, 0, 4⟩ 1 1 (1 / 2, 1 / 2) (-1, 0)).1 = 4 - (0 - (1 / 2 + -1)) - 1 := by
  have h := C4_tile_wraparound ⟨0, 4, 0, 4⟩ 1 1 (by norm_num) (by norm_num)
    (by norm_num) (by norm_num)
  have hbox : inBox ⟨0, 4, 0, 4⟩ ((1 : ℚ) / 2, (1 : ℚ) / 2) := by
    refine ⟨by norm_num, by norm_num, by norm_num, by norm_num⟩
  refine ⟨?_, ?_, ?_, ?_⟩
  · refine h.1 (1 / 2, 1 / 2) [(1, 0), (-1, 1)] hbox ?_
    intro d hd
    fin_cases hd <;> refine ⟨?_, ?_⟩ <;> simp
  · exact (h.2.1 (1 / 2, 1 / 2) (10, 0) hbox).1
  · exact (h.2.1 (1 / 2, 1 / 2) (10, 0) hbox).2.1
  · exact h.2.2.1 (1 / 2, 1 / 2) (-1, 0) (by norm_num)

/-! ## Texture resources (`createImageTexture`, lines 452–571)

`createImageTexture(gl, source, backgroundColor, callback, loadImmediately =
true)` builds a texture object, immediately calls `createTexture()` (which
parses the background colour into `r`,`g`,`b` and uploads a constant 1×1
pixel `[0, 0, 255, 255]`), and — only when `loadImmediately` — calls `load()`
followed by `isInit = true`.  `load()` returns a resolved promise when
`isInit` is already set and otherwise creates a new `Image` and starts a
fetch; nothing in `load()` itself ever sets `isInit`. -/

/-- Hex digit value accepted by the `/^#?([a-f\d]{2})([a-f\d]{2})([a-f\d]{2})$/i`
regex and `parseInt(..., 16)`: case-insensitive. -/
def hexDigitVal (c : Char) : Option ℕ :=
  if '0' ≤ c ∧ c ≤ '9' then some (c.toNat - '0'.toNat)
  else if 'a' ≤ c ∧ c ≤ 'f' then some (c.toNat - 'a'.toNat + 10)
  else if 'A' ≤ c ∧ c ≤ 'F' then some (c.toNat - 'A'.toNat + 10)
  else none

def hexPair (c1 c2 : Char) : Option ℕ := do
  let x ← hexDigitVal c1
  let y ← hexDigitVal c2
  pure (16 * x + y)

/-- `hexToRgb`: optional leading `#`, then three case-insensitive hex byte
pairs; any non-match yields `{r: 0, g: 0, b: 0}`. -/
def hexToRgb (hex : String) : ℕ × ℕ × ℕ :=
  let cs :=
    match hex.toList with
    | '#' :: rest => rest
    | cs => cs
  match cs with
  | [c1, c2, c3, c4, c5, c6] =>
    match hexPair c1 c2, hexPair c3 c4, hexPair c5 c6 with
    | some r, some g, some b => (r, g, b)
    | _, _, _ => (0, 0, 0)
  | _ => (0, 0, 0)

/-- The fields of the texture object the claims observe.  `pixel` is the RGBA
value uploaded to the 1×1 placeholder texture; `fetches` counts how many
times `load()` created a new `Image` and set its `src` (i.e. initiated a
fetch). -/
structure TextureState where
  source : String
  backgroundColor : String
  r : ℚ
  g : ℚ
  b : ℚ
  pixel : ℕ × ℕ × ℕ × ℕ
  texWidth : ℕ
  texHeight : ℕ
  isInit : Bool
  isLoaded : Bool
  fetches : ℕ
  deriving DecidableEq

/-- `textureObj.createTexture()`: parse the background colour into `r`,`g`,`b`
(scaled to 0..1) and upload the constant placeholder pixel `[0,0,255,255]`. -/
def createTexture (source backgroundColor : String) : TextureState :=
  let rgb := hexToRgb backgroundColor
  { source := source
    backgroundColor := backgroundColor
    r := (rgb.1 : ℚ) / 255
    g := (rgb.2.1 : ℚ) / 255
    b := (rgb.2.2 : ℚ) / 255
    pixel := (0, 0, 255, 255)
    texWidth := 1
    texHeight := 1
    isInit := false
    isLoaded := false
    fetches := 0 }

/-- `textureObj.load()`: early-return when `isInit`, otherwise start a new
image fetch.  `isInit` is not modified here. -/
def loadTexture (t : TextureState) : TextureState :=
  if t.isInit then t else { t with fetches := t.fetches + 1 }

/-- `createImageTexture(gl, source, color, callback, loadImmediately)`. -/
def createImageTexture (source backgroundColor : String)
    (loadImmediately : Bool) : TextureState :=
  let t := createTexture source backgroundColor
  if loadImmediately then { loadTexture t with isInit := true } else t

/-- The pixel the spec asks the placeholder to carry: the image's known
dominant colour, opaque. -/
def tintPixel (backgroundColor : String) : ℕ × ℕ × ℕ × ℕ :=
  let rgb := hexToRgb backgroundColor
  (rgb.1, rgb.2.1, rgb.2.2, 255)

/-- C5 counterexample: for an image whose known dominant colour is white
(`#ffffff`), the 1×1 placeholder uploaded at construction is the constant
pixel `[0, 0, 255, 255]` (opaque blue), not the image's colour. -/
theorem C5_placeholder_counterexample :
    (createImageTexture "img.jpg" "#ffffff" true).pixel = (0, 0, 255, 255) ∧
    tintPixel "#ffffff" = (255, 255, 255, 255) ∧
    (createImageTexture "img.jpg" "#ffffff" true).pixel ≠ tintPixel "#ffffff" := by
  refine ⟨rfl, ?_, ?_⟩ <;> decide

/-- C5 (amended): the 1×1 placeholder created synchronously at construction
always carries the constant pixel `[0, 0, 255, 255]`; the image's known
dominant colour is parsed and stored in the texture's `r`, `g`, `b` fields
(fed to shader uniforms), but the uploaded placeholder pixel is not tinted to
it.  (The placeholder is shown only behind an SD opacity of 0, so what is
visible before decode is the site background, not the placeholder colour.) -/
theorem C5_placeholder_amended (source backgroundColor : String)
    (loadImmediately : Bool) :
    (createImageTexture source backgroundColor loadImmediately).pixel
        = (0, 0, 255, 255) ∧
    (createImageTexture source backgroundColor loadImmediately).r
        = ((hexToRgb backgroundColor).1 : ℚ) / 255 ∧
    (createImageTexture source backgroundColor loadImmediately).g
        = ((hexToRgb backgroundColor).2.1 : ℚ) / 255 ∧
    (createImageTexture source backgroundColor loadImmediately).b
        = ((hexToRgb backgroundColor).2.2 : ℚ) / 255 := by
  cases loadImmediately <;>
    simp [createImageTexture, createTexture, loadTexture]

/-- C7: `load()` is *not* idempotent for lazily created (HD) textures — the
`isInit` guard is set only on the `loadImmediately` construction path, never
inside `load()` itself, so each per-frame `load()` call on an HD texture
initiates a fresh image fetch.  For eagerly created (SD) textures the flag is
set at construction and later `load()` calls are no-ops, so the all-SD-loaded
counter is never double-counted.  This theorem evaluates the code at the
failing input: two `load()` calls on an HD texture yield two fetches, while
an SD texture's construction-time load plus one extra call yield one. -/
theorem C7_hd_load_refetches :
    (loadTexture (loadTexture (createImageTexture "img-hd.jpg" "#0F0F0F" false))).fetches
        = 2 ∧
    (createImageTexture "img-hd.jpg" "#0F0F0F" false).isInit = false ∧
    (loadTexture (createImageTexture "img-sd.jpg" "#0F0F0F" true)).fetches = 1 := by
  refine ⟨rfl, rfl, rfl⟩

/-! ## Image source URLs (`getImageSource`, lines 1096–1106)

`getImageSource(image, isHD)` appends `?h=<ceil(min(size*pixelRatio,
naturalHeight))>&fm=<format>&q=<quality>&fit=fill` to the image's base URL,
where `size`/`quality` are picked by the mobile flag and the HD flag, and
`format` is the per-instance `fileFormat` chosen once in `init()` (`'avif'`
when the probe decodes, else `'jpeg'`). -/

/-- Per-renderer configuration fixed at construction/`init`. -/
structure GridConfig where
  isMobile : Bool
  pixelRatio : ℚ
  fileFormat : String
  deriving DecidableEq

/-- An image descriptor as scraped into `img.file`: base URL, natural
dimensions, average colour. -/
structure ImageFile where
  url : String
  imgWidth : ℕ
  imgHeight : ℕ
  color : String
  deriving DecidableEq

/-- `WebGLGrid.getImageSource`. -/
def getImageSource (cfg : GridConfig) (image : ImageFile) (isHD : Bool) : String :=
  let format := cfg.fileFormat
  let size : ℚ :=
    if isHD then (if cfg.isMobile then 800 else 1600)
    else (if cfg.isMobile then 400 else 800)
  let quality : ℕ :=
    if isHD then (if cfg.isMobile then 65 else 80)
    else (if cfg.isMobile then 55 else 70)
  let requestedSize : ℚ := min (size * cfg.pixelRatio) (image.imgHeight : ℚ)
  image.url ++ "?h=" ++ toString ⌈requestedSize⌉ ++ "&fm=" ++ format ++
    "&q=" ++ toString quality ++ "&fit=fill"

/-- The query-parameter contract as the spec words it: target size by device
class and HD flag. -/
def specTargetSize (isMobile isHD : Bool) : ℚ :=
  match isHD, isMobile with
  | true, true => 800
  | true, false => 1600
  | false, true => 400
  | false, false => 800

/-- The quality constant determined by the device class and HD flag, as the
spec words it. -/
def specQuality (isMobile isHD : Bool) : ℕ :=
  match isHD, isMobile with
  | true, true => 65
  | true, false => 80
  | false, true => 55
  | false, false => 70

/-- The spec's fetched-URL contract: the base url followed by exactly
`?h=<int>&fm=<format>&q=<int>&fit=fill`, with `h` the ceiling of
`min(target size × pixelRatio, natural height)`. -/
def specImageURL (cfg : GridConfig) (image : ImageFile) (isHD : Bool) : String :=
  let h : ℤ := ⌈min (specTargetSize cfg.isMobile isHD * cfg.pixelRatio)
    ((image.imgHeight : ℚ))⌉
  image.url ++ "?h=" ++ toString h ++ "&fm=" ++ cfg.fileFormat ++ "&q=" ++
    toString (specQuality cfg.isMobile isHD) ++ "&fit=fill"

/-- C9: for every image descriptor and every HD/SD request, the URL the
renderer fetches equals the spec's query-parameter contract
`url?h=<ceil(min(size·pixelRatio, naturalHeight))>&fm=<format>&q=<quality>&fit=fill`
with the size and quality constants of the device class / HD flag table. -/
theorem C9_image_url_contract (cfg : GridConfig) (image : ImageFile)
    (isHD : Bool) : getImageSource cfg image isHD = specImageURL cfg image isHD := by
  cases hm : cfg.isMobile <;> cases isHD <;>
    simp [getImageSource, specImageURL, specTargetSize, specQuality, hm]

/-! ## Grid construction (`constructor` lines 157–159, `main` lines 316–399)

The constructor shuffles the incoming image list (Fisher–Yates) and
concatenates it with an independently reshuffled copy:
`this.images = [...shuffledImages, ...this.randomizeArray(shuffledImages)]`.
`main()` then picks `maxImages = COLUMN_ITEM_LENGTH * ROW_ITEM_LENGTH`
entries `this.images[i % this.images.length]`, builds one SD texture per
distinct `getImageSource` URL (the `processedSources` dedupe list), and
creates one grid item per selected image whose `texture` is
`this.textures.find(tex => tex.source === imageInfo.source)`.
Randomness is modelled by a supplied index function: `Math.floor(
Math.random() * (i + 1))` is an arbitrary value in `[0, i]`, modelled as
`rnd (i) % (i + 1)`. -/

/-- Swap two positions of a list (the `[array[i], array[j]] = [array[j],
array[i]]` step); indices out of range leave the list unchanged. -/
def listSwap (l : List α) (i j : ℕ) : List α :=
  match l.get? i, l.get? j with
  | some a, some b => (l.set i b).set j a
  | _, _ => l

/-- The Fisher–Yates loop of `randomizeArray`, counting `i` down to 1. -/
def fisherYatesAux (rnd : ℕ → ℕ) : ℕ → List α → List α
  | 0, l => l
  | i + 1, l => fisherYatesAux rnd i (listSwap l (i + 1) (rnd (i + 1) % (i + 2)))

/-- `WebGLGrid.randomizeArray`. -/
def randomizeArray (rnd : ℕ → ℕ) (arr : List α) : List α :=
  fisherYatesAux rnd (arr.length - 1) arr

theorem listSwap_length (l : List α) (i j : ℕ) :
    (listSwap l i j).length = l.length := by
  unfold listSwap
  cases l.get? i <;> cases l.get? j <;> simp

theorem fisherYatesAux_length (rnd : ℕ → ℕ) (n : ℕ) (l : List α) :
    (fisherYatesAux rnd n l).length = l.length := by
  induction n generalizing l with
  | zero => rfl
  | succ i ih => rw [fisherYatesAux, ih, listSwap_length]

theorem randomizeArray_length (rnd : ℕ → ℕ) (arr : List α) :
    (randomizeArray rnd arr).length = arr.length :=
  fisherYatesAux_length rnd _ arr

/-- The working image pool of the constructor: the shuffled list concatenated
with an independently reshuffled copy of itself. -/
def imagesPool (rnd1 rnd2 : ℕ → ℕ) (originalImages : List ImageFile) :
    List ImageFile :=
  let shuffledImages := randomizeArray rnd1 originalImages
  shuffledImages ++ randomizeArray rnd2 shuffledImages

/-- `main`'s selection loop: `selectedImages.push(this.images[i %
this.images.length])` for `i < maxImages`. -/
def selectedImages (images : List ImageFile) (maxImages : ℕ) : List ImageFile :=
  (List.range maxImages).filterMap (fun i => images.get? (i % images.length))

/-- `main`'s SD texture pass: one `createImageTexture` per distinct source,
the `processedSources` accumulator threading left to right (the `map` with a
shared `processedSources` array followed by `.filter(t => t !== null)`). -/
def buildTextures (cfg : GridConfig) :
    List ImageFile → List String → List TextureState
  | [], _ => []
  | img :: rest, processedSources =>
    let source := getImageSource cfg img false
    if source ∈ processedSources then buildTextures cfg rest processedSources
    else createImageTexture source img.color true ::
      buildTextures cfg rest (source :: processedSources)

/-- The grid-item fields relevant to construction (`createGridItem`
options). -/
structure GridItem where
  index : ℕ
  source : String
  texture : Option TextureState
  textureWidth : ℕ
  textureHeight : ℕ
  backgroundColor : String

/-- One `createGridItem` call of `main()`'s construction loop: the options
record built for tile `i`, looking the SD texture up in the unique-texture
list by source URL (`this.textures.find(tex => tex.source ===
imageInfo.source)`). -/
def gridItemOf (cfg : GridConfig) (textures : List TextureState) (i : ℕ)
    (img : ImageFile) : GridItem :=
  { index := i
    source := getImageSource cfg img false
    texture := textures.find? (fun tex => tex.source = getImageSource cfg img false)
    textureWidth := img.imgWidth
    textureHeight := img.imgHeight
    backgroundColor := img.color }

/-- The tile-construction part of `main()`: one grid item per selected
image. -/
def mainGridItems (cfg : GridConfig) (columns rows : ℕ)
    (images : List ImageFile) : List GridItem :=
  (selectedImages images (columns * rows)).mapIdx
    (gridItemOf cfg (buildTextures cfg images []))

theorem buildTextures_covers (cfg : GridConfig) (l : List ImageFile)
    (seen : List String) (s : String)
    (hs : s ∈ l.map (fun img => getImageSource cfg img false)) :
    s ∈ seen ∨ ∃ t ∈ buildTextures cfg l seen, t.source = s := by
  induction l generalizing seen with
  | nil => simp at hs
  | cons img rest ih =>
      rw [List.map_cons, List.mem_cons] at hs
      rw [buildTextures]
      by_cases hmem : getImageSource cfg img false ∈ seen
      · rw [if_pos hmem]
        rcases hs with rfl | hs
        · exact Or.inl hmem
        · exact ih seen hs
      · rw [if_neg hmem]
        rcases hs with rfl | hs
        · refine Or.inr ⟨createImageTexture (getImageSource cfg img false) img.color true,
            List.mem_cons_self _ _, ?_⟩
          simp [createImageTexture, createTexture, loadTexture]
        · rcases ih (getImageSource cfg img false :: seen) hs with hseen | ⟨t, ht, hts⟩
          · rcases List.mem_cons.mp hseen with rfl | hseen2
            · refine Or.inr ⟨createImageTexture (getImageSource cfg img false) img.color true,
                List.mem_cons_self _ _, ?_⟩
              simp [createImageTexture, createTexture, loadTexture]
            · exact Or.inl hseen2
          · exact Or.inr ⟨t, List.mem_cons_of_mem _ ht, hts⟩

theorem selectedImages_length {images : List ImageFile} (hne : images ≠ [])
    (maxImages : ℕ) : (selectedImages images maxImages).length = maxImages := by
  unfold selectedImages
  have hlen : 0 < images.length := List.length_pos.mpr hne
  have h : ∀ l : List ℕ,
      (l.filterMap (fun i => images.get? (i % images.length))).length = l.length := by
    intro l
    induction l with
    | nil => rfl
    | cons i rest ih =>
        have hmod : i % images.length < images.length := Nat.mod_lt i hlen
        rcases List.get?_eq_get hmod with hget
        rw [List.filterMap_cons, hget]
        simp only [List.length_cons, ih]
  rw [h, List.length_range]

theorem selectedImages_mem {images : List ImageFile} {img : ImageFile}
    {maxImages : ℕ} (hmem : img ∈ selectedImages images maxImages) :
    img ∈ images := by
  unfold selectedImages at hmem
  rcases List.mem_filterMap.mp hmem with ⟨i, _, hget⟩
  exact List.get?_mem hget

theorem mem_mapIdx_exists {l : List α} {f : ℕ → α → β} {b : β}
    (h : b ∈ l.mapIdx f) : ∃ i, ∃ hi : i < l.length, b = f i (l.get ⟨i, hi⟩) := by
  rcases List.mem_iff_get.mp h with ⟨⟨i, hi⟩, hget⟩
  have hi2 : i < l.length := by
    have hlen : (l.mapIdx f).length = l.length := List.length_mapIdx
    omega
  refine ⟨i, hi2, ?_⟩
  rw [← hget, List.get_mapIdx]

/-- C6: constructing a grid from a nonempty list of N unique images with
`columns × rows` tiles produces a working pool of length 2N, exactly
`columns × rows` grid items, and every item's SD texture lookup succeeds with
a texture present in the renderer's unique-texture list — no tile is left
with an undefined texture. -/
theorem C6_every_tile_has_texture (cfg : GridConfig) (rnd1 rnd2 : ℕ → ℕ)
    (originalImages : List ImageFile) (columns rows : ℕ)
    (hne : originalImages ≠ []) :
    (imagesPool rnd1 rnd2 originalImages).length = 2 * originalImages.length ∧
    (mainGridItems cfg columns rows (imagesPool rnd1 rnd2 originalImages)).length
        = columns * rows ∧
    ∀ item ∈ mainGridItems cfg columns rows (imagesPool rnd1 rnd2 originalImages),
      (∃ img ∈ imagesPool rnd1 rnd2 originalImages,
        item.source = getImageSource cfg img false) ∧
      ∃ t, item.texture = some t ∧
        t ∈ buildTextures cfg (imagesPool rnd1 rnd2 originalImages) [] := by
  set pool := imagesPool rnd1 rnd2 originalImages with hpool
  have hpoollen : pool.length = 2 * originalImages.length := by
    rw [hpool]
    unfold imagesPool
    rw [List.length_append, randomizeArray_length, randomizeArray_length,
      randomizeArray_length]
    omega
  have hpoolne : pool ≠ [] := by
    intro hnil
    have h0 : pool.length = 0 := by rw [hnil]; rfl
    have hpos : 0 < originalImages.length := List.length_pos.mpr hne
    omega
  refine ⟨hpoollen, ?_, ?_⟩
  · unfold mainGridItems
    rw [List.length_mapIdx, selectedImages_length hpoolne]
  · intro item hitem
    unfold mainGridItems at hitem
    rcases mem_mapIdx_exists hitem with ⟨i, hi, rfl⟩
    set img := (selectedImages pool (columns * rows)).get ⟨i, hi⟩ with himgdef
    have himg : img ∈ pool := selectedImages_mem (List.get_mem _ _ _)
    have hsrc : getImageSource cfg img false
        ∈ pool.map (fun im => getImageSource cfg im false) :=
      List.mem_map_of_mem _ himg
    rcases buildTextures_covers cfg pool [] _ hsrc with h0 | ⟨t, ht, hts⟩
    · simp at h0
    · have hfindsome : ((buildTextures cfg pool []).find?
          (fun tex => tex.source = getImageSource cfg img false)).isSome := by
        rw [List.find?_isSome]
        exact ⟨t, ht, by simp [hts]⟩
      rcases Option.isSome_iff_exists.mp hfindsome with ⟨t2, hfind⟩
      exact ⟨⟨img, himg, rfl⟩, t2, hfind, List.mem_of_find?_eq_some hfind⟩

/-- C6 witness: one unique image, a 2×1 grid and constant random choices —
the pool has length 2 and exactly 2 grid items are produced. -/
theorem C6_every_tile_has_texture_witness :
    (imagesPool (fun _ => 0) (fun _ => 0)
      [⟨"img.jpg", 800, 1200, "#0f0f0f"⟩]).length = 2 ∧
    (mainGridItems ⟨false, 1, "avif"⟩ 2 1 (imagesPool (fun _ => 0) (fun _ => 0)
      [⟨"img.jpg", 800, 1200, "#0f0f0f"⟩])).length = 2 := by
  have h := C6_every_tile_has_texture ⟨false, 1, "avif"⟩ (fun _ => 0) (fun _ => 0)
    [⟨"img.jpg", 800, 1200, "#0f0f0f"⟩] 2 1 (by simp)
  exact ⟨h.1, h.2.1⟩

/-! ## Intro triggering (`startIntroSequence` lines 189–199,
`onTextureSDLoaded` lines 408–420, `introSequence` lines 1219–1286)

`introSequence` returns early when `isIntroShown` is already true and
otherwise creates a new GSAP intro timeline; `isIntroShown` is set to true
only in that timeline's `onComplete` callback.  `startIntroSequence` returns
early when `isIntroShown` or when `texturesLoaded` is still false, else calls
`introSequence`.  `onTextureSDLoaded` increments `indexTextureSD` and, when
the counter reaches `this.textures.length`, sets `texturesLoaded` and (unless
`delayIntroAnimation`) calls `introSequence`.  The model tracks
`introStarts`, the number of intro timelines created. -/

structure IntroState where
  delayIntroAnimation : Bool
  totalTextures : ℕ
  indexTextureSD : ℕ
  texturesLoaded : Bool
  isIntroShown : Bool
  introStarts : ℕ
  deriving DecidableEq

/-- `introSequence()`: guarded by `isIntroShown`; creates a new intro
timeline otherwise.  `isIntroShown` is *not* set here. -/
def introSequence (s : IntroState) : IntroState :=
  if s.isIntroShown then s else { s with introStarts := s.introStarts + 1 }

/-- `startIntroSequence()`. -/
def startIntroSequence (s : IntroState) : IntroState :=
  if s.isIntroShown then s
  else if s.texturesLoaded = false then s
  else introSequence s

/-- `onTextureSDLoaded()`: one SD texture finished decoding. -/
def onTextureSDLoaded (s : IntroState) : IntroState :=
  let s1 := { s with indexTextureSD := s.indexTextureSD + 1 }
  if s1.indexTextureSD = s1.totalTextures then
    let s2 := { s1 with texturesLoaded := true }
    if s2.delayIntroAnimation = false then introSequence s2 else s2
  else s1

/-- The intro timeline's `onComplete` callback. -/
def introTimelineComplete (s : IntroState) : IntroState :=
  { s with isIntroShown := true }

inductive IntroEvent
  | load
  | start
  | complete
  deriving DecidableEq

def introStep (s : IntroState) : IntroEvent → IntroState
  | IntroEvent.load => onTextureSDLoaded s
  | IntroEvent.start => startIntroSequence s
  | IntroEvent.complete => introTimelineComplete s

def runIntro (s : IntroState) (events : List IntroEvent) : IntroState :=
  events.foldl introStep s

/-- The renderer's state right after construction. -/
def initIntroState (delayIntro : Bool) (totalTextures : ℕ) : IntroState :=
  { delayIntroAnimation := delayIntro
    totalTextures := totalTextures
    indexTextureSD := 0
    texturesLoaded := false
    isIntroShown := false
    introStarts := 0 }

/-- C1 counterexample: with `delayIntro = true` and one SD texture, the trace
load → startIntroSequence → startIntroSequence (the second call arriving
before the first intro timeline has completed) creates two intro timeline
instances: `isIntroShown` only guards re-entry after `onComplete` has run. -/
theorem C1_intro_once_counterexample :
    (runIntro (initIntroState true 1)
      [IntroEvent.load, IntroEvent.start, IntroEvent.start]).introStarts = 2 := by
  decide

theorem introStep_totalTextures (s : IntroState) (e : IntroEvent) :
    (introStep s e).totalTextures = s.totalTextures := by
  cases e <;>
    simp only [introStep, onTextureSDLoaded, startIntroSequence, introSequence,
      introTimelineComplete] <;>
    split_ifs <;> rfl

theorem introStep_delayIntro (s : IntroState) (e : IntroEvent) :
    (introStep s e).delayIntroAnimation = s.delayIntroAnimation := by
  cases e <;>
    simp only [introStep, onTextureSDLoaded, startIntroSequence, introSequence,
      introTimelineComplete] <;>
    split_ifs <;> rfl

theorem introStep_of_introShown {s : IntroState} (h : s.isIntroShown = true)
    (e : IntroEvent) :
    (introStep s e).introStarts = s.introStarts ∧
      (introStep s e).isIntroShown = true := by
  cases e
  · simp only [introStep, onTextureSDLoaded, introSequence]
    split_ifs <;> exact ⟨rfl, h⟩
  · simp only [introStep, startIntroSequence]
    rw [if_pos h]
    exact ⟨rfl, h⟩
  · exact ⟨rfl, rfl⟩

theorem runIntro_of_introShown {s : IntroState} (h : s.isIntroShown = true)
    (events : List IntroEvent) :
    (runIntro s events).introStarts = s.introStarts := by
  induction events generalizing s with
  | nil => rfl
  | cons e rest ih =>
      have hstep := introStep_of_introShown h e
      show (runIntro (introStep s e) rest).introStarts = s.introStarts
      rw [ih hstep.2, hstep.1]

theorem runIntro_totalTextures (s : IntroState) (events : List IntroEvent) :
    (runIntro s events).totalTextures = s.totalTextures := by
  induction events generalizing s with
  | nil => rfl
  | cons e rest ih =>
      show (runIntro (introStep s e) rest).totalTextures = _
      rw [ih, introStep_totalTextures]

theorem runIntro_delayIntro (s : IntroState) (events : List IntroEvent) :
    (runIntro s events).delayIntroAnimation = s.delayIntroAnimation := by
  induction events generalizing s with
  | nil => rfl
  | cons e rest ih =>
      show (runIntro (introStep s e) rest).delayIntroAnimation = _
      rw [ih, introStep_delayIntro]

theorem runIntro_loads (delayIntro : Bool) (total : ℕ) (htotal : 1 ≤ total)
    (n : ℕ) :
    (runIntro (initIntroState delayIntro total)
        (List.replicate n IntroEvent.load)).indexTextureSD = n ∧
    (runIntro (initIntroState delayIntro total)
        (List.replicate n IntroEvent.load)).isIntroShown = false ∧
    (runIntro (initIntroState delayIntro total)
        (List.replicate n IntroEvent.load)).introStarts =
      (if delayIntro = false ∧ total ≤ n then 1 else 0) := by
  induction n with
  | zero =>
      refine ⟨rfl, rfl, ?_⟩
      have h : ¬ (delayIntro = false ∧ total ≤ 0) := by
        rintro ⟨_, hle⟩
        omega
      rw [if_neg h]
      rfl
  | succ n ih =>
      obtain ⟨ih1, ih2, ih3⟩ := ih
      have hrep : List.replicate (n + 1) IntroEvent.load
          = List.replicate n IntroEvent.load ++ [IntroEvent.load] :=
        List.replicate_succ' _ _
      have hfold : runIntro (initIntroState delayIntro total)
          (List.replicate (n + 1) IntroEvent.load)
          = introStep (runIntro (initIntroState delayIntro total)
              (List.replicate n IntroEvent.load)) IntroEvent.load := by
        rw [hrep]
        unfold runIntro
        rw [List.foldl_append]
        rfl
      set s := runIntro (initIntroState delayIntro total)
        (List.replicate n IntroEvent.load) with hs
      have htot : s.totalTextures = total := runIntro_totalTextures _ _
      have hdel : s.delayIntroAnimation = delayIntro := runIntro_delayIntro _ _
      rw [hfold]
      show (onTextureSDLoaded s).indexTextureSD = n + 1 ∧
        (onTextureSDLoaded s).isIntroShown = false ∧
        (onTextureSDLoaded s).introStarts = _
      simp only [onTextureSDLoaded, introSequence]
      by_cases hhit : s.indexTextureSD + 1 = s.totalTextures
      · have hn : n + 1 = total := by
          rw [ih1, htot] at hhit
          exact hhit
        rw [if_pos hhit]
        by_cases hd : delayIntro = false
        · rw [if_pos (by show s.delayIntroAnimation = false; rw [hdel]; exact hd)]
          rw [if_neg (by show ¬ s.isIntroShown = true; rw [ih2]; simp)]
          refine ⟨by show s.indexTextureSD + 1 = n + 1; rw [ih1],
            by show s.isIntroShown = false; exact ih2, ?_⟩
          have hcond : (delayIntro = false ∧ total ≤ n + 1) := ⟨hd, by omega⟩
          rw [if_pos hcond]
          have hnotbefore : ¬ (delayIntro = false ∧ total ≤ n) := by
            rintro ⟨_, hle⟩
            omega
          rw [if_neg hnotbefore] at ih3
          show s.introStarts + 1 = 1
          rw [ih3]
        · rw [if_neg (by show ¬ s.delayIntroAnimation = false; rw [hdel]; exact hd)]
          refine ⟨by show s.indexTextureSD + 1 = n + 1; rw [ih1],
            by show s.isIntroShown = false; exact ih2, ?_⟩
          have hcond : ¬ (delayIntro = false ∧ total ≤ n + 1) := by
            rintro ⟨hdf, _⟩
            exact hd hdf
          rw [if_neg hcond]
          have hnotbefore : ¬ (delayIntro = false ∧ total ≤ n) := by
            rintro ⟨hdf, _⟩
            exact hd hdf
          rw [if_neg hnotbefore] at ih3
          show s.introStarts = 0
          exact ih3
      · rw [if_neg hhit]
        refine ⟨by show s.indexTextureSD + 1 = n + 1; rw [ih1],
          by show s.isIntroShown = false; exact ih2, ?_⟩
        have hne2 : n + 1 ≠ total := by
          rw [ih1, htot] at hhit
          exact hhit
        show s.introStarts = _
        rcases Nat.lt_or_ge (n + 1) total with hlt | hge
        · have h1 : ¬ (delayIntro = false ∧ total ≤ n + 1) := by
            rintro ⟨_, hle⟩
            omega
          have h2 : ¬ (delayIntro = false ∧ total ≤ n) := by
            rintro ⟨_, hle⟩
            omega
          rw [if_neg h1]
          rw [if_neg h2] at ih3
          exact ih3
        · have hgt : total < n + 1 := by omega
          have h1 : (delayIntro = false ∧ total ≤ n + 1) ↔
              (delayIntro = false ∧ total ≤ n) := by
            constructor
            · rintro ⟨hdf, _⟩
              exact ⟨hdf, by omega⟩
            · rintro ⟨hdf, hle⟩
              exact ⟨hdf, by omega⟩
          rw [if_congr h1 rfl rfl]
          exact ih3

/-- C1 (amended): once the first intro timeline has *completed*
(`isIntroShown` set in `onComplete`), no further event — `startIntroSequence`
call, SD-load completion, or timeline completion — ever starts another intro
timeline; and the all-SD-loaded condition alone (any number of load
callbacks, no external `startIntroSequence`) triggers at most one intro.
Between the first trigger and the timeline's completion, however, an external
`startIntroSequence` call does start a second timeline (see the
counterexample), so the guard protects only the post-completion lifetime. -/
theorem C1_intro_once_amended :
    (∀ (s : IntroState) (events : List IntroEvent), s.isIntroShown = true →
      (runIntro s events).introStarts = s.introStarts) ∧
    (∀ (delayIntro : Bool) (total n : ℕ), 1 ≤ total →
      (runIntro (initIntroState delayIntro total)
        (List.replicate n IntroEvent.load)).introStarts ≤ 1) := by
  refine ⟨fun s events h => runIntro_of_introShown h events, ?_⟩
  intro delayIntro total n htotal
  rw [(runIntro_loads delayIntro total htotal n).2.2]
  split <;> omega

/-- C1 witness: after a completed intro (`isIntroShown = true`) two further
start calls change nothing; and two load callbacks against a single-texture
renderer trigger exactly one (≤ 1) intro. -/
theorem C1_intro_once_witness :
    (runIntro (introTimelineComplete (initIntroState false 1))
      [IntroEvent.start, IntroEvent.start]).introStarts
        = (introTimelineComplete (initIntroState false 1)).introStarts ∧
    (runIntro (initIntroState false 1)
      (List.replicate 2 IntroEvent.load)).introStarts ≤ 1 :=
  ⟨C1_intro_once_amended.1 _ _ rfl, C1_intro_once_amended.2 false 1 2 (by decide)⟩

/-! ## Teardown (`WebGLGrid.destroy` lines 1398–1469, `ArchiveView.destroy`)

`WebGLGrid.destroy()` returns immediately when `isDestroyed` is already set,
otherwise sets it synchronously and (after a delay, modelled as part of the
same transition) destroys each texture (`texture.destroy()` deletes the GPU
texture only when `this.texture` is non-null and then nulls it), clears both
texture lists, deletes the two vertex buffers and the program (each guarded
by a null check and nulled after deletion), and clears `imagesGL`.
`ArchiveView.destroy()` has the same `isDestroyed` guard, cancels its
animation frame, and (deferred) calls `scene.destroy()` and nulls the scene.
`deletions` counts `gl.deleteTexture` / `gl.deleteBuffer` /
`gl.deleteProgram` calls. -/

/-- GPU-resource state of a `WebGLGrid` instance: alive flags for each SD/HD
texture's GPU object and the three shared GPU objects, with a deletion
counter. -/
structure GridGPUState where
  isDestroyed : Bool
  textures : List Bool
  texturesHD : List Bool
  positionBuffer : Bool
  texcoordBuffer : Bool
  program : Bool
  imagesGLCount : ℕ
  deletions : ℕ
  deriving DecidableEq

/-- Number of live GPU objects a destroy pass would delete. -/
def liveGPUObjects (s : GridGPUState) : ℕ :=
  s.textures.count true + s.texturesHD.count true +
    (if s.positionBuffer then 1 else 0) + (if s.texcoordBuffer then 1 else 0) +
    (if s.program then 1 else 0)

/-- `WebGLGrid.destroy()` (the deferred GPU teardown inlined): each
`texture.destroy()` deletes only a non-null texture, lists are emptied,
buffers and the program deleted under their null guards. -/
def gridDestroy (s : GridGPUState) : GridGPUState :=
  if s.isDestroyed then s
  else
    { isDestroyed := true
      textures := []
      texturesHD := []
      positionBuffer := false
      texcoordBuffer := false
      program := false
      imagesGLCount := 0
      deletions := s.deletions + liveGPUObjects s }

/-- `ArchiveView` state: the destroy guard, the render-loop handle and the
owned renderer. -/
structure ArchiveViewState where
  isDestroyed : Bool
  rafActive : Bool
  scene : Option GridGPUState
  deriving DecidableEq

/-- `ArchiveView.destroy()`: guarded by `isDestroyed`; cancels the animation
frame and (deferred) destroys and nulls the scene. -/
def archiveDestroy (v : ArchiveViewState) : ArchiveViewState :=
  if v.isDestroyed then v
  else
    { isDestroyed := true
      rafActive := false
      scene := v.scene.map gridDestroy }

/-- C8: destroy is idempotent.  A second `WebGLGrid.destroy()` (or
`ArchiveView.destroy()`) immediately after the first is a no-op that changes
no state; and one destroy pass deletes each live GPU object exactly once (no
double deletion: a destroyed state contributes no further deletions). -/
theorem C8_destroy_idempotent :
    (∀ s : GridGPUState, gridDestroy (gridDestroy s) = gridDestroy s) ∧
    (∀ s : GridGPUState, (gridDestroy s).deletions =
      s.deletions + (if s.isDestroyed then 0 else liveGPUObjects s)) ∧
    (∀ v : ArchiveViewState, archiveDestroy (archiveDestroy v) = archiveDestroy v) := by
  refine ⟨?_, ?_, ?_⟩
  · intro s
    unfold gridDestroy
    split_ifs with h1 h2
    · rfl
    · rfl
    · simp at h2
  · intro s
    unfold gridDestroy
    split_ifs with h1
    · omega
    · rfl
  · intro v
    unfold archiveDestroy
    split_ifs with h1 h2
    · rfl
    · rfl
    · simp at h2

end RngdGrid
